import Mathlib

/-!
Verification of the docstring-insertion engine of menisadi/docsgen.

The reference implementation is `src/docgaps/docsgen.py` (the spec's chosen
variant: live-buffer indentation, recoverable generation errors, descending
order multi-target insertion).  Python strings are modelled as Lean `String`
(a list of characters); files are modelled as line buffers `List String`,
exactly as the Python code manipulates them after `str.splitlines()`.  The
external parser collaborator (`ast.parse`) is a parameter producing a
`PyNode` syntax tree; `SyntaxError` is modelled as `Except.error`, and
`ValueError` raised by signature derivation is modelled the same way.
Only the newline character is treated as a line break: every buffer in the
program is produced by splitting on it and written back joined by it.
-/

namespace Docsgen

/-- Whitespace test used by Python's strip family and by the whitespace
class of the regular expression in signature derivation: space, tab,
newline, carriage return, vertical tab, form feed. -/
def pyIsSpace (c : Char) : Bool :=
  c == ' ' || c == '\t' || c == '\n' || c == '\r' || c == '\x0b' || c == '\x0c'

/-- Python str.strip: remove leading and trailing whitespace. -/
def pyStrip (s : String) : String :=
  String.mk (((s.data.dropWhile pyIsSpace).reverse.dropWhile pyIsSpace).reverse)

/-- Python str.rstrip: remove trailing whitespace. -/
def pyRstrip (s : String) : String :=
  String.mk ((s.data.reverse.dropWhile pyIsSpace).reverse)

/-- The leading run of whitespace of a line, i.e. the slice
def_line[: len(def_line) - len(def_line.lstrip())] computed by
_insert_docstring. -/
def leadingWhitespace (s : String) : String :=
  String.mk (s.data.takeWhile pyIsSpace)

/-- Boolean test that the first character list is an initial segment of the
second. -/
def charsStartWith : List Char → List Char → Bool
  | [], _ => true
  | _ :: _, [] => false
  | a :: as, b :: bs => a == b && charsStartWith as bs

/-- Python str.startswith. -/
def pyStartsWith (s pat : String) : Bool :=
  charsStartWith pat.data s.data

/-- Python str.endswith. -/
def pyEndsWith (s pat : String) : Bool :=
  charsStartWith pat.data.reverse s.data.reverse

/-- Worker for pySplitlines; the accumulator holds the current line's
characters in reverse.  A newline terminates a line; a newline that ends the
text does not open a further empty line (Python splitlines semantics). -/
def splitlinesAux : List Char → List Char → List String
  | [], acc => [String.mk acc.reverse]
  | '\n' :: [], acc => [String.mk acc.reverse]
  | '\n' :: c :: rest, acc => String.mk acc.reverse :: splitlinesAux (c :: rest) []
  | c :: rest, acc => splitlinesAux rest (c :: acc)

/-- Python str.splitlines, restricted to the newline character (the only
line break the program produces or consumes). -/
def pySplitlines (s : String) : List String :=
  match s.data with
  | [] => []
  | c :: rest => splitlinesAux (c :: rest) []

/-- Target (docsgen.py): information about a function that lacks a
docstring.  lineno is the 1-based line of the def; src is the frozen source
snapshot of the whole function. -/
structure Target where
  filepath : String
  lineno : Nat
  name : String
  src : String
deriving DecidableEq

/-- ASCII word character, for the word boundary that follows the def
keyword in the regular expression of signature derivation. -/
def isWordChar (c : Char) : Bool :=
  c.isAlphanum || c == '_'

/-- Match of the literal def keyword followed by a word boundary at the head
of the character list. -/
def defKeywordAt : List Char → Bool
  | 'd' :: 'e' :: 'f' :: rest =>
    (match rest with
     | [] => true
     | c :: _ => !(isWordChar c))
  | _ => false

/-- Match of the async qualifier, at least one whitespace character, then
the def keyword with its word boundary. -/
def asyncDefKeywordAt : List Char → Bool
  | 'a' :: 's' :: 'y' :: 'n' :: 'c' :: rest =>
    (match rest with
     | c :: _ => pyIsSpace c
     | [] => false) && defKeywordAt (rest.dropWhile pyIsSpace)
  | _ => false

/-- Embedding of the anchored regular-expression test used by
Target.signature: optional leading whitespace, an optional async qualifier,
the def keyword, a word boundary. -/
def matchesDefPattern (line : String) : Bool :=
  let rest := line.data.dropWhile pyIsSpace
  defKeywordAt rest || asyncDefKeywordAt rest

/-- Second loop of Target.signature: append each line right-stripped, and
stop after the first line whose right-stripped form ends with the colon. -/
def sigTail : List String → List String
  | [] => []
  | l :: rest =>
    if pyEndsWith (pyRstrip l) ":" then [pyRstrip l]
    else pyRstrip l :: sigTail rest

/-- First loop of Target.signature: skip lines until one matches the
function-introduction pattern, and return it with the remaining lines. -/
def findDefLine : List String → Option (String × List String)
  | [] => none
  | l :: rest => if matchesDefPattern l then some (l, rest) else findDefLine rest

/-- Target.signature (docsgen.py): collect the def line and subsequent lines
until one ends with the colon; raise ValueError (modelled as Except.error)
when no line matches the function-introduction pattern, since only then is
the collected list empty. -/
def Target.signature (t : Target) : Except String String :=
  match findDefLine (pySplitlines t.src) with
  | none => Except.error "No function header found in src"
  | some (defLine, rest) =>
    Except.ok (String.intercalate "\n" (pyRstrip defLine :: sigTail rest))

/-- Shallow embedding of the ast syntax tree as the docsgen code reads it:
a functionDef node carries the fields the code consumes — name, 1-based
lineno, inclusive end_lineno, the answer of the ast.get_docstring query, and
its child nodes; every other node kind (module, class, statements) only
contributes its children to the walk. -/
inductive PyNode where
  | functionDef (name : String) (lineno end_lineno : Nat)
      (docstring : Option String) (body : List PyNode)
  | other (body : List PyNode)

/-- Child nodes of a node. -/
def childrenOf : PyNode → List PyNode
  | PyNode.functionDef _ _ _ _ body => body
  | PyNode.other body => body

mutual

/-- ast.walk: every node of the tree rooted at the argument, the root
included (the ast documentation leaves the traversal order unspecified;
docsgen sorts the collected targets afterwards). -/
def astWalk : PyNode → List PyNode
  | PyNode.functionDef nm ln el ds body =>
    PyNode.functionDef nm ln el ds body :: astWalkList body
  | PyNode.other body => PyNode.other body :: astWalkList body

/-- Walk of a list of sibling subtrees. -/
def astWalkList : List PyNode → List PyNode
  | [] => []
  | n :: rest => astWalk n ++ astWalkList rest

end

/-- The node k occurs somewhere in the tree rooted at n (reflexive
descendant relation); the specification-side notion of a full-tree walk. -/
inductive InTree : PyNode → PyNode → Prop where
  | refl (n : PyNode) : InTree n n
  | child (k m n : PyNode) : m ∈ childrenOf n → InTree k m → InTree k n

/-- _extract_function_src (docsgen.py): the slice
lines[node.lineno - 1 : node.end_lineno] joined by newlines. -/
def extract_function_src (lines : List String) (lineno end_lineno : Nat) : String :=
  String.intercalate "\n" ((lines.drop (lineno - 1)).take (end_lineno - (lineno - 1)))

/-- Loop body of find_missing_docstrings: a FunctionDef node whose
ast.get_docstring answer is None yields a Target; every other node yields
nothing. -/
def target_of_node (file_path : String) (lines : List String) : PyNode → Option Target
  | PyNode.functionDef nm ln el ds _ =>
    (match ds with
     | none => some (Target.mk file_path ln nm (extract_function_src lines ln el))
     | some _ => none)
  | PyNode.other _ => none

/-- find_missing_docstrings (docsgen.py): parse the text — on SyntaxError
(Except.error) return the empty list — then collect a Target for every
FunctionDef node in the full walk whose docstring query answers None, and
return the collection sorted by lineno.  ast.parse is the external parser
collaborator and is passed as a parameter; Python's stable sorted with the
lineno key is modelled by mergeSort. -/
def find_missing_docstrings (parse : String → Except String PyNode)
    (source : String) (file_path : String) : List Target :=
  match parse source with
  | Except.error _ => []
  | Except.ok tree =>
    ((astWalk tree).filterMap (target_of_node file_path (pySplitlines source))).mergeSort
      (fun a b => Nat.ble a.lineno b.lineno)

/-- _insert_docstring (docsgen.py): read the indentation of the current
buffer line at tgt.lineno (1-based), add one four-space level, apply that
to every line of doc, and splice the result plus one blank line directly
after the def line.  The Python slice assignment
lines[insert_at:insert_at] = indented + [""] is take/append/drop on the
buffer.  lines[tgt.lineno - 1] assumes a valid start line (claims state it
as a hypothesis); the out-of-range access that would raise IndexError in
Python is modelled by a default of the empty line. -/
def insert_docstring (lines : List String) (tgt : Target) (doc : String) : List String :=
  let def_line := lines.getD (tgt.lineno - 1) ""
  let base_indent := leadingWhitespace def_line
  let indent_spaces := base_indent ++ "    "
  let indented := (pySplitlines doc).map (fun ln => indent_spaces ++ ln)
  lines.take tgt.lineno ++ indented ++ [""] ++ lines.drop tgt.lineno

/-- The docstring delimiter: three double-quote characters. -/
def tripleQuote : String := "\"\"\""

/-- _edit_docstring (docsgen.py), final normalization step.  The argument
is the already-stripped text collected from the external editor or from the
inline fallback (both are external interactions); if it is not already
delimited on both ends by the triple quote it is wrapped in triple quotes
on their own lines. -/
def edit_docstring (edited : String) : String :=
  if pyStartsWith edited tripleQuote && pyEndsWith edited tripleQuote then edited
  else tripleQuote ++ "\n" ++ edited ++ "\n" ++ tripleQuote

/-- _generate_docstring (docsgen.py), success path: the external model's
raw output, stripped of surrounding whitespace.  The model call itself is
the external collaborator; its raw output is the argument. -/
def generate_docstring (modelOutput : String) : String :=
  pyStrip modelOutput

/-- Operator choice at the top-level prompt of the interactive session. -/
inductive Action where
  | generate
  | manual
  | skip
  | quit

/-- Operator choice at the review prompt after a successful generation. -/
inductive ReviewChoice where
  | accept
  | regenerate
  | edit
  | skip
  | quit

/-- Operator choice at the prompt after a failed generation. -/
inductive RetryChoice where
  | retry
  | skip
  | quit

/-- One interaction of the generation loop: either the external generator
raised and the operator chose how to proceed, or it returned raw model
output and the operator chose at the review prompt; editedText is the
stripped text the operator produced when the choice was edit. -/
inductive GenEvent where
  | failure (choice : RetryChoice)
  | success (modelOutput : String) (choice : ReviewChoice) (editedText : String)

/-- Outcome of the generation loop for one target: a recorded entry (some
docstring, or none for a review-skip), no entry at all (failure-skip), an
early quit of the whole session, or a script too short to decide (the real
loop would block on further input). -/
inductive GenLoopResult where
  | recorded (value : Option String)
  | noRecord
  | quitSession
  | blocked

/-- The while-true generation loop of _interactive_session (docsgen.py),
driven by the script of interaction events. -/
def runGenLoop : List GenEvent → GenLoopResult
  | [] => GenLoopResult.blocked
  | GenEvent.failure RetryChoice.retry :: rest => runGenLoop rest
  | GenEvent.failure RetryChoice.skip :: _ => GenLoopResult.noRecord
  | GenEvent.failure RetryChoice.quit :: _ => GenLoopResult.quitSession
  | GenEvent.success out ReviewChoice.accept _ :: _ =>
    GenLoopResult.recorded (some (generate_docstring out))
  | GenEvent.success _ ReviewChoice.edit ed :: _ =>
    GenLoopResult.recorded (some (edit_docstring ed))
  | GenEvent.success _ ReviewChoice.skip _ :: _ => GenLoopResult.recorded none
  | GenEvent.success _ ReviewChoice.quit _ :: _ => GenLoopResult.quitSession
  | GenEvent.success _ ReviewChoice.regenerate _ :: rest => runGenLoop rest

/-- The operator's scripted behaviour for one target: the top-level choice,
the stripped text entered on the manual path, and the events of the
generation loop on the generate path. -/
structure TargetScript where
  action : Action
  manualText : String
  genEvents : List GenEvent

/-- _interactive_session (docsgen.py): walk the targets in order and build
the results mapping (an insertion-ordered association list, like the Python
dict).  quit at any prompt keeps the entries already recorded and stops;
a failure-skip records no entry for the target; none is returned when a
script is too short to decide (the real session would block on input). -/
def interactive_session :
    List (Target × TargetScript) → Option (List (Target × Option String))
  | [] => some []
  | (t, s) :: rest =>
    match s.action with
    | Action.quit => some []
    | Action.skip => (interactive_session rest).map (fun r => (t, none) :: r)
    | Action.manual =>
      (interactive_session rest).map (fun r => (t, some (edit_docstring s.manualText)) :: r)
    | Action.generate =>
      match runGenLoop s.genEvents with
      | GenLoopResult.recorded v => (interactive_session rest).map (fun r => (t, v) :: r)
      | GenLoopResult.noRecord => interactive_session rest
      | GenLoopResult.quitSession => some []
      | GenLoopResult.blocked => none

/-- A parser that rejects every input, standing for ast.parse on a file with
malformed syntax. -/
def failingParse : String → Except String PyNode :=
  fun _ => Except.error "SyntaxError: invalid syntax"

/-- A sample syntax tree with a documented nested function and two
undocumented ones, one of them class-scoped. -/
def sampleTree : PyNode :=
  PyNode.other
    [PyNode.functionDef "f" 1 2 none [],
     PyNode.other
       [PyNode.functionDef "g" 4 7 none
          [PyNode.functionDef "h" 5 6 (some "Doc.") []]]]

/-- A parser standing for ast.parse succeeding with the sample tree. -/
def sampleParse : String → Except String PyNode :=
  fun _ => Except.ok sampleTree

/-- The source text the sample tree describes. -/
def sampleSource : String :=
  "def f():\n    pass\nclass C:\n    def g():\n        def h():\n            \"\"\"Doc.\"\"\"\n        return h"

lemma charsStartWith_append (p r : List Char) : charsStartWith p (p ++ r) = true := by
  induction p with
  | nil => rfl
  | cons a as ih => simp [charsStartWith, ih]

lemma findDefLine_none_iff :
    ∀ ls : List String, findDefLine ls = none ↔ ∀ l ∈ ls, matchesDefPattern l = false := by
  intro ls
  induction ls with
  | nil => simp [findDefLine]
  | cons a as ih =>
    cases h : matchesDefPattern a with
    | true =>
      have hstep : findDefLine (a :: as) = some (a, as) := by
        simp [findDefLine, h]
      rw [hstep]
      constructor
      · intro hc
        exact absurd hc (by simp)
      · intro hall
        have ha := hall a (List.mem_cons_self a as)
        rw [h] at ha
        exact absurd ha (by simp)
    | false =>
      have hstep : findDefLine (a :: as) = findDefLine as := by
        simp [findDefLine, h]
      rw [hstep, ih]
      constructor
      · intro hall l hl
        rcases List.mem_cons.mp hl with rfl | hl'
        · exact h
        · exact hall l hl'
      · intro hall l hl
        exact hall l (List.mem_cons_of_mem a hl)

/-- C2: inserting a documentation string for a target turns the buffer into
the first lineno lines unchanged, then the lines of doc each carrying the
computed indentation, then exactly one empty line, then the remaining
original lines; the buffer grows by the number of doc lines plus one. -/
theorem insert_docstring_splice (lines : List String) (tgt : Target) (doc : String) :
    insert_docstring lines tgt doc =
      lines.take tgt.lineno
        ++ (pySplitlines doc).map
            (fun ln => leadingWhitespace (lines.getD (tgt.lineno - 1) "") ++ "    " ++ ln)
        ++ [""] ++ lines.drop tgt.lineno
    ∧ (insert_docstring lines tgt doc).length =
        lines.length + (pySplitlines doc).length + 1 := by
  constructor
  · rfl
  · have h := congrArg List.length (List.take_append_drop tgt.lineno lines)
    simp only [List.length_append] at h
    simp only [insert_docstring, List.length_append, List.length_map, List.length_cons,
      List.length_nil]
    omega

/-- C3: the indentation applied to the documentation text is the leading
whitespace of the current buffer line at the target's start line plus one
four-space unit, applied uniformly to every doc line; the result depends on
the target only through its start line, not on its frozen source snapshot,
name, or file. -/
theorem insert_docstring_indent_current (lines : List String) (tgt : Target) (doc : String) :
    insert_docstring lines tgt doc =
      lines.take tgt.lineno
        ++ (pySplitlines doc).map
            (fun ln => leadingWhitespace (lines.getD (tgt.lineno - 1) "") ++ "    " ++ ln)
        ++ [""] ++ lines.drop tgt.lineno
    ∧ ∀ tgt2 : Target, tgt2.lineno = tgt.lineno →
        insert_docstring lines tgt2 doc = insert_docstring lines tgt doc := by
  refine ⟨rfl, fun tgt2 h => ?_⟩
  simp only [insert_docstring, h]

/-- C3 witness: two targets differing in every frozen field except the start
line produce the same insertion. -/
theorem insert_docstring_indent_current_witness :
    insert_docstring ["def f():", "    pass"]
        (Target.mk "other.py" 1 "stale" "STALE SNAPSHOT") "\"\"\"Doc.\"\"\"" =
      insert_docstring ["def f():", "    pass"]
        (Target.mk "w.py" 1 "f" "def f():\n    pass") "\"\"\"Doc.\"\"\"" :=
  (insert_docstring_indent_current ["def f():", "    pass"]
      (Target.mk "w.py" 1 "f" "def f():\n    pass") "\"\"\"Doc.\"\"\"").2
    (Target.mk "other.py" 1 "stale" "STALE SNAPSHOT") rfl

/-- C1: insertion for a target whose 1-based start line is valid in the
buffer leaves every line at an index strictly before the start line
unchanged in content and position; hence, applied in descending order of
original start line, an insertion never moves the insertion point (the def
line) of a still-pending target with a strictly smaller start line. -/
theorem insert_docstring_preserves_earlier_lines (lines : List String) (tgt : Target)
    (doc : String) (hval : tgt.lineno ≤ lines.length) :
    (∀ i : Nat, i + 1 < tgt.lineno →
        (insert_docstring lines tgt doc)[i]? = lines[i]?)
    ∧ ∀ pending : Target, 1 ≤ pending.lineno → pending.lineno < tgt.lineno →
        (insert_docstring lines tgt doc)[pending.lineno - 1]? = lines[pending.lineno - 1]? := by
  have main : ∀ i : Nat, i < tgt.lineno →
      (insert_docstring lines tgt doc)[i]? = lines[i]? := by
    intro i hi
    have h1 : i < (lines.take tgt.lineno).length := by
      rw [List.length_take]
      exact lt_min_iff.mpr ⟨hi, lt_of_lt_of_le hi hval⟩
    simp only [insert_docstring, List.append_assoc]
    rw [List.getElem?_append, if_pos h1, List.getElem?_take, if_pos hi]
  exact ⟨fun i hi => main i (by omega),
    fun pending h1 h2 => main (pending.lineno - 1) (by omega)⟩

/-- C1 witness: in a four-line buffer, inserting for the target on line 3
leaves lines 1 and 2 where they were. -/
theorem insert_docstring_preserves_earlier_lines_witness :
    (insert_docstring ["def f():", "    pass", "def g():", "    pass"]
        (Target.mk "w.py" 3 "g" "def g():\n    pass") "\"\"\"Doc.\"\"\"")[1]? =
      ["def f():", "    pass", "def g():", "    pass"][1]? :=
  (insert_docstring_preserves_earlier_lines
      ["def f():", "    pass", "def g():", "    pass"]
      (Target.mk "w.py" 3 "g" "def g():\n    pass") "\"\"\"Doc.\"\"\"" (by decide)).1
    1 (by decide)

/-- C4: contrary to the claim (and to the function's own docstring, which
promises only the complete header), signature derivation on a single-line
header does not stop at the def line: the def line already ends with the
colon, but the second loop never examines it and keeps appending body lines
until some body line happens to end with a colon.  On the two-line function
below the whole body is returned along with the header. -/
theorem signature_single_line_header_returns_body :
    (Target.mk "bug.py" 1 "f" "def f(x):\n    return x").signature =
      Except.ok "def f(x):\n    return x" := rfl

/-- C5 counterexample: a source whose def line never reaches a colon is not
rejected — signature derivation returns the collected lines instead of
raising, so the claim's second error condition (no header line ending with
the colon) does not trigger an error in the code. -/
theorem signature_missing_colon_no_error :
    (Target.mk "bug.py" 1 "f" "def f(").signature = Except.ok "def f("
    ∧ pySplitlines "def f(" = ["def f("]
    ∧ pyEndsWith (pyRstrip "def f(") ":" = false :=
  ⟨rfl, by decide, by decide⟩

/-- C5 amended: signature derivation raises (returns the ValueError)
exactly when no line of the source snapshot matches the
function-introduction pattern; whenever some line matches, it returns a
value without raising — even when no examined line ends with the colon, as
the counterexample shows. -/
theorem signature_error_iff_no_def_line (t : Target) :
    (t.signature = Except.error "No function header found in src" ↔
      ∀ l ∈ pySplitlines t.src, matchesDefPattern l = false)
    ∧ ((∃ l ∈ pySplitlines t.src, matchesDefPattern l = true) →
      ∃ s, t.signature = Except.ok s) := by
  constructor
  · rw [← findDefLine_none_iff (pySplitlines t.src)]
    unfold Target.signature
    cases hf : findDefLine (pySplitlines t.src) with
    | none => simp
    | some p =>
      obtain ⟨d, rest⟩ := p
      simp
  · intro hmatch
    unfold Target.signature
    cases hf : findDefLine (pySplitlines t.src) with
    | none =>
      exfalso
      obtain ⟨l, hl, hm⟩ := hmatch
      have hfalse := (findDefLine_none_iff (pySplitlines t.src)).mp hf l hl
      rw [hm] at hfalse
      exact absurd hfalse (by simp)
    | some p =>
      obtain ⟨d, rest⟩ := p
      exact ⟨String.intercalate "\n" (pyRstrip d :: sigTail rest), rfl⟩

/-- C5 witness: a snapshot with no function-introduction line makes
signature derivation fail loudly with the ValueError message. -/
theorem signature_error_iff_no_def_line_witness :
    (Target.mk "w.py" 1 "g" "x = 1\ny = 2").signature =
      Except.error "No function header found in src" :=
  (signature_error_iff_no_def_line (Target.mk "w.py" 1 "g" "x = 1\ny = 2")).1.mpr (by decide)

/-- C6: when the parser collaborator fails on the file text (SyntaxError),
the extractor returns the empty target list instead of propagating the
failure, so a scan over many files continues. -/
theorem find_missing_docstrings_parse_failure (parse : String → Except String PyNode)
    (source file_path : String) (e : String) (hp : parse source = Except.error e) :
    find_missing_docstrings parse source file_path = [] := by
  unfold find_missing_docstrings
  rw [hp]

/-- C6 witness: scanning an unparseable text yields zero targets. -/
theorem find_missing_docstrings_parse_failure_witness :
    find_missing_docstrings failingParse "def f(:\n" "bad.py" = [] :=
  find_missing_docstrings_parse_failure failingParse "def f(:\n" "bad.py"
    "SyntaxError: invalid syntax" rfl

/-- C9: the manual and edit paths normalize before recording: text not
already delimited on both ends by the triple quote is wrapped in it, so
every recorded result of those paths starts and ends with the delimiter. -/
theorem edit_docstring_well_delimited (edited : String) :
    ((pyStartsWith edited tripleQuote && pyEndsWith edited tripleQuote) = false →
      edit_docstring edited = tripleQuote ++ "\n" ++ edited ++ "\n" ++ tripleQuote)
    ∧ pyStartsWith (edit_docstring edited) tripleQuote = true
    ∧ pyEndsWith (edit_docstring edited) tripleQuote = true := by
  cases hb : (pyStartsWith edited tripleQuote && pyEndsWith edited tripleQuote) with
  | true =>
    have heq : edit_docstring edited = edited := by
      unfold edit_docstring
      rw [hb]
      simp
    have hparts : pyStartsWith edited tripleQuote = true ∧
        pyEndsWith edited tripleQuote = true := by
      simpa [Bool.and_eq_true] using hb
    refine ⟨fun hfalse => ?_, by rw [heq]; exact hparts.1, by rw [heq]; exact hparts.2⟩
    exact absurd hfalse (by simp)
  | false =>
    have hwrap : edit_docstring edited =
        tripleQuote ++ "\n" ++ edited ++ "\n" ++ tripleQuote := by
      unfold edit_docstring
      rw [hb]
      simp
    refine ⟨fun _ => hwrap, ?_, ?_⟩
    · rw [hwrap]
      unfold pyStartsWith
      simp only [String.data_append, List.append_assoc]
      exact charsStartWith_append tripleQuote.data _
    · rw [hwrap]
      unfold pyEndsWith
      simp only [String.data_append, List.reverse_append, List.append_assoc]
      exact charsStartWith_append tripleQuote.data.reverse _

/-- C9 witness: an undelimited manual entry is wrapped and the recorded
value starts and ends with the delimiter. -/
theorem edit_docstring_well_delimited_witness :
    edit_docstring "Short summary." = "\"\"\"" ++ "\n" ++ "Short summary." ++ "\n" ++ "\"\"\""
    ∧ pyStartsWith (edit_docstring "Short summary.") tripleQuote = true
    ∧ pyEndsWith (edit_docstring "Short summary.") tripleQuote = true :=
  ⟨(edit_docstring_well_delimited "Short summary.").1 (by decide),
    (edit_docstring_well_delimited "Short summary.").2.1,
    (edit_docstring_well_delimited "Short summary.").2.2⟩

lemma InTree_iff (k n : PyNode) :
    InTree k n ↔ k = n ∨ ∃ m, m ∈ childrenOf n ∧ InTree k m := by
  constructor
  · intro h
    cases h with
    | refl => exact Or.inl rfl
    | child m _ hm hkm => exact Or.inr ⟨m, hm, hkm⟩
  · rintro (rfl | ⟨m, hm, hkm⟩)
    · exact InTree.refl k
    · exact InTree.child k m n hm hkm

mutual

lemma mem_astWalk_iff : ∀ (k n : PyNode), k ∈ astWalk n ↔ InTree k n
  | k, PyNode.functionDef nm ln el ds body => by
    rw [show astWalk (PyNode.functionDef nm ln el ds body) =
        PyNode.functionDef nm ln el ds body :: astWalkList body from rfl,
      List.mem_cons, InTree_iff k (PyNode.functionDef nm ln el ds body),
      mem_astWalkList_iff k body]
    simp [childrenOf]
  | k, PyNode.other body => by
    rw [show astWalk (PyNode.other body) = PyNode.other body :: astWalkList body from rfl,
      List.mem_cons, InTree_iff k (PyNode.other body), mem_astWalkList_iff k body]
    simp [childrenOf]

lemma mem_astWalkList_iff : ∀ (k : PyNode) (l : List PyNode),
    k ∈ astWalkList l ↔ ∃ m, m ∈ l ∧ InTree k m
  | k, [] => by simp [astWalkList]
  | k, n :: rest => by
    rw [show astWalkList (n :: rest) = astWalk n ++ astWalkList rest from rfl,
      List.mem_append, mem_astWalk_iff k n, mem_astWalkList_iff k rest]
    constructor
    · rintro (h | ⟨m, hm, hkm⟩)
      · exact ⟨n, List.mem_cons_self n rest, h⟩
      · exact ⟨m, List.mem_cons_of_mem n hm, hkm⟩
    · rintro ⟨m, hm, hkm⟩
      rcases List.mem_cons.mp hm with rfl | hm'
      · exact Or.inl hkm
      · exact Or.inr ⟨m, hm', hkm⟩

end

lemma pairwise_lineno_mergeSort (l : List Target) :
    List.Pairwise (fun a b => a.lineno ≤ b.lineno)
      (l.mergeSort (fun a b => Nat.ble a.lineno b.lineno)) := by
  have h := @List.sorted_mergeSort Target (fun a b : Target => Nat.ble a.lineno b.lineno)
    (fun a b c hab hbc => by
      rw [Nat.ble_eq] at hab hbc ⊢
      exact Nat.le_trans hab hbc)
    (fun a b => by
      rw [Bool.or_eq_true, Nat.ble_eq, Nat.ble_eq]
      exact Nat.le_total a.lineno b.lineno)
    l
  exact h.imp (fun hab => by rwa [Nat.ble_eq] at hab)

/-- C7: on a parseable text the extractor's result contains a target exactly
for every FunctionDef node anywhere in the tree (the full walk: nested and
class-scoped functions included) whose docstring query answers None, built
from the node's fields and source slice, and the result is sorted ascending
by start line.  Determinism is inherent: the embedding is a pure function
of the text and path. -/
theorem find_missing_docstrings_complete_and_sorted
    (parse : String → Except String PyNode) (source file_path : String) (tree : PyNode)
    (hp : parse source = Except.ok tree) :
    (∀ t : Target,
        t ∈ find_missing_docstrings parse source file_path ↔
          ∃ nm ln el body, InTree (PyNode.functionDef nm ln el none body) tree ∧
            t = Target.mk file_path ln nm
                  (extract_function_src (pySplitlines source) ln el))
    ∧ List.Pairwise (fun a b => a.lineno ≤ b.lineno)
        (find_missing_docstrings parse source file_path) := by
  have hdef : find_missing_docstrings parse source file_path =
      ((astWalk tree).filterMap
          (target_of_node file_path (pySplitlines source))).mergeSort
        (fun a b => Nat.ble a.lineno b.lineno) := by
    unfold find_missing_docstrings
    rw [hp]
  constructor
  · intro t
    rw [hdef, List.mem_mergeSort, List.mem_filterMap]
    constructor
    · rintro ⟨n, hn, hf⟩
      cases n with
      | functionDef nm ln el ds body =>
        cases ds with
        | none =>
          refine ⟨nm, ln, el, body, (mem_astWalk_iff _ tree).mp hn, ?_⟩
          simp only [target_of_node, Option.some.injEq] at hf
          exact hf.symm
        | some d => simp [target_of_node] at hf
      | other body => simp [target_of_node] at hf
    · rintro ⟨nm, ln, el, body, hin, rfl⟩
      exact ⟨PyNode.functionDef nm ln el none body,
        (mem_astWalk_iff _ tree).mpr hin, by simp [target_of_node]⟩
  · rw [hdef]
    exact pairwise_lineno_mergeSort _

/-- C7 witness: on the sample parse the top-level undocumented function is
reported and the result is line-sorted. -/
theorem find_missing_docstrings_complete_and_sorted_witness :
    Target.mk "s.py" 1 "f" (extract_function_src (pySplitlines sampleSource) 1 2) ∈
        find_missing_docstrings sampleParse sampleSource "s.py"
    ∧ List.Pairwise (fun a b => a.lineno ≤ b.lineno)
        (find_missing_docstrings sampleParse sampleSource "s.py") :=
  ⟨((find_missing_docstrings_complete_and_sorted sampleParse sampleSource "s.py"
        sampleTree rfl).1
      (Target.mk "s.py" 1 "f" (extract_function_src (pySplitlines sampleSource) 1 2))).mpr
    ⟨"f", 1, 2, [],
      InTree.child (PyNode.functionDef "f" 1 2 none []) (PyNode.functionDef "f" 1 2 none [])
        sampleTree (by simp [sampleTree, childrenOf]) (InTree.refl _), rfl⟩,
    (find_missing_docstrings_complete_and_sorted sampleParse sampleSource "s.py"
        sampleTree rfl).2⟩

/-- C10: when the operator accepts a generated suggestion directly, the
recorded value is the generator's raw output stripped of surrounding
whitespace, verbatim — no delimiter normalization runs on this path, for
any output whatsoever. -/
theorem session_accept_records_stripped_output (t : Target) (s : TargetScript)
    (rest : List (Target × TargetScript)) (out ed : String) (evs : List GenEvent)
    (res : List (Target × Option String))
    (ha : s.action = Action.generate)
    (he : s.genEvents = GenEvent.success out ReviewChoice.accept ed :: evs)
    (hr : interactive_session rest = some res) :
    interactive_session ((t, s) :: rest) = some ((t, some (pyStrip out)) :: res) := by
  obtain ⟨a, m, g⟩ := s
  simp only [TargetScript.action] at ha
  simp only [TargetScript.genEvents] at he
  subst ha
  subst he
  simp only [interactive_session, runGenLoop, generate_docstring, hr]
  rfl

/-- C10 witness: accepting the undelimited suggestion records it undelimited
(stripped only), as the last conjunct checks. -/
theorem session_accept_records_stripped_output_witness :
    interactive_session
        [(Target.mk "m.py" 1 "f" "def f():\n    pass",
          TargetScript.mk Action.generate ""
            [GenEvent.success "  Adds two numbers.  " ReviewChoice.accept ""])] =
      some [(Target.mk "m.py" 1 "f" "def f():\n    pass",
        some (pyStrip "  Adds two numbers.  "))]
    ∧ pyStartsWith (pyStrip "  Adds two numbers.  ") tripleQuote = false :=
  ⟨session_accept_records_stripped_output
      (Target.mk "m.py" 1 "f" "def f():\n    pass")
      (TargetScript.mk Action.generate ""
        [GenEvent.success "  Adds two numbers.  " ReviewChoice.accept ""])
      [] "  Adds two numbers.  " "" [] [] rfl rfl rfl,
    by decide⟩

end Docsgen
